import Mathlib

/-!
Verification of the train-lookup pipeline (`main.go`): a filter → sort →
truncate pipeline over an in-memory list of train records, guarded by an
input validator.

Embedding choices:
* Go `int` is `Int`; `strconv.Atoi` is modelled with its error discarded,
  exactly as the code does (syntax error yields 0, range error yields the
  clamped 64-bit value).
* `price` (`float32` in Go) is modelled as `ℚ`; the comparisons the code
  performs on prices agree with the rational order on the values involved.
* `time.Time` values only ever carry a time of day (parsed from `HH:MM:SS`),
  so they are modelled as seconds since midnight (`Nat`); `Before` is `<`.
* `sort.SliceStable` is modelled as a stable merge sort on the negation of
  the strict comparator.
* `SeparateTopTrains` indexes positions 0, 1, 2 unconditionally, so its
  embedding returns `Option`: `none` is the out-of-range panic.
* The record source (`importInfo`, which reads `data.json`) is an external
  collaborator; functions that consume it take the record list as an
  explicit argument.
-/

namespace TrainApp

/-- Train record (struct `Train` in `main.go`); times are seconds since
midnight. -/
structure Train where
  trainID : Int
  departureStationID : Int
  arrivalStationID : Int
  price : ℚ
  arrivalTime : Nat
  departureTime : Nat
deriving DecidableEq

/-- Record list (type `Trains`). -/
abbrev Trains := List Train

/-- Constant `maxNumberTrains = 3`. -/
def maxNumberTrains : Nat := 3

/-- Constant `naturalNumberCondition = 0`. -/
def naturalNumberCondition : Int := 0

/-- Constant `sortCondition = 1`. -/
def sortCondition : Nat := 1

/-- The error values declared at the top of `main.go`. -/
inductive FindErr where
  | criteriaErr
  | emptyDepartureErr
  | emptyArrivalErr
  | badArrivalInputErr
  | badDepartureInputErr
deriving DecidableEq

/-- The keys of the `validCriteria` map. -/
def validCriteria : List String := ["price", "arrival-time", "departure-time"]

/-- Value of a digit string, most significant digit first. -/
def digitsToNat (cs : List Char) : Nat :=
  cs.foldl (fun n c => 10 * n + (c.toNat - 48)) 0

/-- Go `strconv.Atoi` syntax: an optional sign followed by one or more
decimal digits; `none` on a syntax error, otherwise the unclamped value. -/
def parseGoInt (s : String) : Option Int :=
  match s.toList with
  | [] => none
  | c :: cs =>
    if c = '+' then
      if cs ≠ [] ∧ cs.all Char.isDigit then some (digitsToNat cs) else none
    else if c = '-' then
      if cs ≠ [] ∧ cs.all Char.isDigit then some (-(digitsToNat cs : Int)) else none
    else if (c :: cs).all Char.isDigit then some (digitsToNat (c :: cs)) else none

/-- Largest 64-bit signed integer (Go `int` on a 64-bit platform). -/
def int64Max : Int := 9223372036854775807

/-- Smallest 64-bit signed integer. -/
def int64Min : Int := -9223372036854775808

/-- Go `strconv.Atoi` with the returned error discarded, as the code does:
a syntax error leaves the value 0, a range error leaves the clamped value. -/
def atoi (s : String) : Int :=
  match parseGoInt s with
  | none => 0
  | some v => max int64Min (min int64Max v)

/-- `validateEmpty`: passes iff the string is non-empty. -/
def validateEmpty (s : String) : Bool :=
  ¬ s.length = 0

/-- `validateIsNaturalNumber`: passes iff the `Atoi` value exceeds
`naturalNumberCondition`. -/
def validateIsNaturalNumber (s : String) : Bool :=
  naturalNumberCondition < atoi s

/-- `validator`: the five checks in source order, first failure wins. -/
def validator (departureStation arrivalStation criteria : String) : Option FindErr :=
  if validateEmpty departureStation = false then some .emptyDepartureErr
  else if validateEmpty arrivalStation = false then some .emptyArrivalErr
  else if validateIsNaturalNumber departureStation = false then some .badDepartureInputErr
  else if validateIsNaturalNumber arrivalStation = false then some .badArrivalInputErr
  else if validCriteria.contains criteria = false then some .criteriaErr
  else none

/-- `SelectTrains`: the range-and-append loop over the record source, with
the station texts converted by `Atoi`. The source list stands in for
`importInfo`. -/
def SelectTrains (trainSchedule : Trains) (departureStation arrivalStation : String) : Trains :=
  let departure := atoi departureStation
  let arrival := atoi arrivalStation
  trainSchedule.foldl
    (fun availableTrains v =>
      if v.departureStationID = departure ∧ v.arrivalStationID = arrival then
        availableTrains ++ [v]
      else availableTrains)
    []

/-- The comparator closure of `SortTrainsByPrice`: both branches of its `if`
return `price i < price j`. -/
def priceLess (t u : Train) : Bool :=
  if t.price ≠ u.price then decide (t.price < u.price) else decide (t.price < u.price)

/-- The comparator closure of `SortTrainsByArrival`. -/
def arrivalLess (t u : Train) : Bool :=
  if t.arrivalTime ≠ u.arrivalTime then decide (t.arrivalTime < u.arrivalTime)
  else decide (t.arrivalTime < u.arrivalTime)

/-- The comparator closure of `SortTrainsByDeparture`. -/
def departureLess (t u : Train) : Bool :=
  if t.departureTime ≠ u.departureTime then decide (t.departureTime < u.departureTime)
  else decide (t.departureTime < u.departureTime)

/-- Go `sort.SliceStable less`: a stable sort that never places `b` before
`a` when `less b a` holds; modelled as a merge sort on `¬ less b a`. -/
def sliceStable (l : Trains) (less : Train → Train → Bool) : Trains :=
  l.mergeSort (fun a b => ! less b a)

/-- `SortTrainsByPrice`. -/
def SortTrainsByPrice (availableTrains : Trains) : Trains :=
  sliceStable availableTrains priceLess

/-- `SortTrainsByArrival`. -/
def SortTrainsByArrival (availableTrains : Trains) : Trains :=
  sliceStable availableTrains arrivalLess

/-- `SortTrainsByDeparture`. -/
def SortTrainsByDeparture (availableTrains : Trains) : Trains :=
  sliceStable availableTrains departureLess

/-- `SortTrains`: dispatch on the criteria string; the default branch sorts
by departure time. -/
def SortTrains (availableTrains : Trains) (criteria : String) : Trains :=
  match criteria with
  | "price" => SortTrainsByPrice availableTrains
  | "arrival-time" => SortTrainsByArrival availableTrains
  | _ => SortTrainsByDeparture availableTrains

/-- `SeparateTopTrains`: appends the elements at indices 0, 1 and 2
unconditionally; `none` models the index-out-of-range panic. -/
def SeparateTopTrains (availableTrains : Trains) : Option Trains := do
  let t0 ← availableTrains[0]?
  let t1 ← availableTrains[1]?
  let t2 ← availableTrains[2]?
  pure [t0, t1, t2]

/-- `FindTrains`: validate, select, sort (skipped below `sortCondition`
elements), truncate to the top `maxNumberTrains` when at least that many;
`none` models a panic, `Except.error` a returned error. -/
def FindTrains (trainSchedule : Trains) (departureStation arrivalStation criteria : String) :
    Option (Except FindErr Trains) :=
  match validator departureStation arrivalStation criteria with
  | some err => some (.error err)
  | none =>
    let availableTrains := SelectTrains trainSchedule departureStation arrivalStation
    if availableTrains.length < sortCondition then some (.ok availableTrains)
    else
      let sortedTrains := SortTrains availableTrains criteria
      if sortedTrains.length ≥ maxNumberTrains then
        (SeparateTopTrains sortedTrains).map .ok
      else some (.ok sortedTrains)

/-- Variant of `FindTrains` that runs the sort step unconditionally, with no
skip for selections shorter than `sortCondition`; the spec asserts the two
are observably equal. -/
def FindTrainsAlwaysSort (trainSchedule : Trains) (departureStation arrivalStation criteria : String) :
    Option (Except FindErr Trains) :=
  match validator departureStation arrivalStation criteria with
  | some err => some (.error err)
  | none =>
    let availableTrains := SelectTrains trainSchedule departureStation arrivalStation
    let sortedTrains := SortTrains availableTrains criteria
    if sortedTrains.length ≥ maxNumberTrains then
      (SeparateTopTrains sortedTrains).map .ok
    else some (.ok sortedTrains)

/-- Parsing as an integer strictly greater than zero, the condition the spec
states for station texts. -/
def parsesAsPosInt (s : String) : Prop :=
  ∃ v : Int, parseGoInt s = some v ∧ 0 < v

/-! ## Helper lemmas -/

/-- The append-if loop of `SelectTrains` is the stable filter. -/
theorem foldl_append_filter (p : Train → Prop) [DecidablePred p] :
    ∀ (l acc : Trains),
      l.foldl (fun r v => if p v then r ++ [v] else r) acc
        = acc ++ l.filter (fun v => decide (p v))
  | [], acc => by simp
  | a :: l, acc => by
    by_cases h : p a
    · rw [List.foldl_cons, if_pos h, foldl_append_filter p l (acc ++ [a])]
      simp [List.filter_cons, h]
    · rw [List.foldl_cons, if_neg h, foldl_append_filter p l acc]
      simp [List.filter_cons, h]

/-- `SelectTrains` equals the stable filter on the matching predicate. -/
theorem selectTrains_eq_filter (source : Trains) (dep arr : String) :
    SelectTrains source dep arr
      = source.filter
          (fun v => decide (v.departureStationID = atoi dep ∧ v.arrivalStationID = atoi arr)) := by
  have h := foldl_append_filter
    (fun v => v.departureStationID = atoi dep ∧ v.arrivalStationID = atoi arr) source []
  simpa [SelectTrains] using h

/-- The price comparator collapses to a strict comparison (both branches of
its `if` are identical). -/
theorem priceLess_eq (t u : Train) : priceLess t u = decide (t.price < u.price) := by
  unfold priceLess
  exact ite_self _

/-- The arrival comparator collapses to a strict comparison. -/
theorem arrivalLess_eq (t u : Train) : arrivalLess t u = decide (t.arrivalTime < u.arrivalTime) := by
  unfold arrivalLess
  exact ite_self _

/-- The departure comparator collapses to a strict comparison. -/
theorem departureLess_eq (t u : Train) :
    departureLess t u = decide (t.departureTime < u.departureTime) := by
  unfold departureLess
  exact ite_self _

/-- A stable sort on the strict comparator of a key into a linear order is a
permutation, is sorted ascending by the key, and preserves the relative
order of any class of records whose keys agree. -/
theorem sliceStable_key_spec {β : Type} [LinearOrder β] (key : Train → β)
    (less : Train → Train → Bool) (hless : ∀ a b, less a b = true ↔ key a < key b)
    (l : Trains) :
    (sliceStable l less).Perm l
    ∧ (sliceStable l less).Pairwise (fun a b => key a ≤ key b)
    ∧ ∀ p : Train → Bool, (∀ x y, p x = true → p y = true → key x = key y) →
        (sliceStable l less).filter p = l.filter p := by
  have hle : ∀ a b : Train, (! less b a) = true ↔ key a ≤ key b := by
    intro a b
    rw [Bool.not_eq_true', ← Bool.not_eq_true, not_iff_comm, hless, not_le]
  have htrans : ∀ a b c : Train,
      (! less b a) = true → (! less c b) = true → (! less c a) = true := by
    intro a b c hab hbc
    exact (hle a c).mpr (le_trans ((hle a b).mp hab) ((hle b c).mp hbc))
  have htotal : ∀ a b : Train, ((! less b a) || (! less a b)) = true := by
    intro a b
    rcases le_total (key a) (key b) with h | h
    · exact Bool.or_eq_true_iff.mpr (Or.inl ((hle a b).mpr h))
    · exact Bool.or_eq_true_iff.mpr (Or.inr ((hle b a).mpr h))
  refine ⟨List.mergeSort_perm l _, ?_, ?_⟩
  · exact (List.sorted_mergeSort htrans htotal l).imp (fun h => (hle _ _).mp h)
  · intro p hp
    have hpw : (l.filter p).Pairwise (fun a b => (! less b a) = true) := by
      apply List.pairwise_of_forall_mem_list
      intro a ha b hb
      exact (hle a b).mpr (le_of_eq (hp a b (List.of_mem_filter ha) (List.of_mem_filter hb)))
    have h1 : List.Sublist (l.filter p) (List.mergeSort l (fun a b => ! less b a)) :=
      List.sublist_mergeSort htrans htotal hpw (List.filter_sublist l)
    have h2 : List.Sublist (l.filter p) ((List.mergeSort l (fun a b => ! less b a)).filter p) := by
      have h3 := h1.filter p
      rwa [List.filter_eq_self.mpr (fun a ha => List.of_mem_filter ha)] at h3
    have hlen : ((List.mergeSort l (fun a b => ! less b a)).filter p).length
        = (l.filter p).length := by
      rw [← List.countP_eq_length_filter, ← List.countP_eq_length_filter]
      exact (List.mergeSort_perm l _).countP_eq p
    exact (h2.eq_of_length hlen.symm).symm

/-- `SortTrains` on the empty list returns the empty list, whatever the
criteria. -/
theorem sortTrains_nil (c : String) : SortTrains [] c = [] := by
  unfold SortTrains SortTrainsByPrice SortTrainsByArrival SortTrainsByDeparture sliceStable
  split <;> simp

/-- `SortTrains` on a one-element list returns it unchanged, whatever the
criteria. -/
theorem sortTrains_singleton (t : Train) (c : String) : SortTrains [t] c = [t] := by
  unfold SortTrains SortTrainsByPrice SortTrainsByArrival SortTrainsByDeparture sliceStable
  split <;> simp

/-- `SortTrains` is a permutation of its input for every criteria string. -/
theorem sortTrains_perm (l : Trains) (c : String) : (SortTrains l c).Perm l := by
  unfold SortTrains SortTrainsByPrice SortTrainsByArrival SortTrainsByDeparture sliceStable
  split <;> exact List.mergeSort_perm l _

/-- A string has length zero exactly when it is empty. -/
theorem string_length_eq_zero_iff (s : String) : s.length = 0 ↔ s = "" := by
  cases s with
  | mk data =>
    simp only [String.length, String.ext_iff]
    cases data <;> simp

/-- `validateEmpty` fails exactly on the empty string. -/
theorem validateEmpty_eq_false_iff (s : String) : validateEmpty s = false ↔ s = "" := by
  simp [validateEmpty, string_length_eq_zero_iff]

/-- Clamping to the 64-bit range preserves strict positivity. -/
theorem clamp_pos (v : Int) : 0 < max int64Min (min int64Max v) ↔ 0 < v := by
  unfold int64Min int64Max
  omega

/-- `validateIsNaturalNumber` passes exactly on texts that parse as an
integer strictly greater than zero. -/
theorem validateIsNaturalNumber_iff (s : String) :
    validateIsNaturalNumber s = true ↔ parsesAsPosInt s := by
  unfold validateIsNaturalNumber parsesAsPosInt naturalNumberCondition atoi
  cases h : parseGoInt s with
  | none => simp [h]
  | some v =>
    simp [h]
    unfold int64Min int64Max
    omega

/-- Membership in `validCriteria` as the code's `contains` check. -/
theorem contains_validCriteria_iff (c : String) :
    validCriteria.contains c = true ↔ c ∈ validCriteria :=
  List.elem_iff

/-- `validateEmpty` passes exactly on non-empty strings. -/
theorem validateEmpty_eq_true_iff (s : String) : validateEmpty s = true ↔ s ≠ "" := by
  simp only [ne_eq, ← validateEmpty_eq_false_iff]
  cases validateEmpty s <;> simp

/-- The failing form of `validateIsNaturalNumber_iff`. -/
theorem validateIsNaturalNumber_eq_false_iff (s : String) :
    validateIsNaturalNumber s = false ↔ ¬ parsesAsPosInt s := by
  rw [← validateIsNaturalNumber_iff]
  cases validateIsNaturalNumber s <;> simp

/-- `SeparateTopTrains` on a list of at least 3 elements is its 3-element
prefix. -/
theorem separateTopTrains_eq_take (l : Trains) (h : 3 ≤ l.length) :
    SeparateTopTrains l = some (l.take 3) := by
  rcases l with _ | ⟨a, _ | ⟨b, _ | ⟨c, rest⟩⟩⟩
  · simp at h
  · simp at h
  · simp at h
  · simp [SeparateTopTrains]

/-- `SeparateTopTrains` on a list of fewer than 3 elements hits an index out
of range. -/
theorem separateTopTrains_eq_none (l : Trains) (h : l.length < 3) :
    SeparateTopTrains l = none := by
  rcases l with _ | ⟨a, _ | ⟨b, _ | ⟨c, rest⟩⟩⟩
  · simp [SeparateTopTrains]
  · simp [SeparateTopTrains]
  · simp [SeparateTopTrains]
  · simp only [List.length_cons] at h
    omega

/-! ## Claims -/

/-- C1: for every record list and station-id pair, `SelectTrains` returns
exactly the records whose departure-station id equals the queried departure
id and whose arrival-station id equals the queried arrival id, in the same
relative order as the source list (it is the stable filter, hence also a
sublist of the source). -/
theorem selectTrains_spec (source : Trains) (dep arr : String) :
    SelectTrains source dep arr
        = source.filter
            (fun v => decide (v.departureStationID = atoi dep ∧ v.arrivalStationID = atoi arr))
      ∧ List.Sublist (SelectTrains source dep arr) source := by
  refine ⟨selectTrains_eq_filter source dep arr, ?_⟩
  rw [selectTrains_eq_filter source dep arr]
  exact List.filter_sublist source

/-- C2: for each of the three criteria, `SortTrains` returns a permutation
of its input sorted ascending by that criterion's key (numeric price, or
earlier time of day first), and the sort is stable: the subsequence of
records sharing any fixed key value is unchanged. -/
theorem sortTrains_spec (l : Trains) :
    ((SortTrains l "price").Perm l
      ∧ (SortTrains l "price").Pairwise (fun a b => a.price ≤ b.price)
      ∧ ∀ q : ℚ, (SortTrains l "price").filter (fun t => decide (t.price = q))
          = l.filter (fun t => decide (t.price = q)))
    ∧ ((SortTrains l "arrival-time").Perm l
      ∧ (SortTrains l "arrival-time").Pairwise (fun a b => a.arrivalTime ≤ b.arrivalTime)
      ∧ ∀ n : Nat, (SortTrains l "arrival-time").filter (fun t => decide (t.arrivalTime = n))
          = l.filter (fun t => decide (t.arrivalTime = n)))
    ∧ ((SortTrains l "departure-time").Perm l
      ∧ (SortTrains l "departure-time").Pairwise (fun a b => a.departureTime ≤ b.departureTime)
      ∧ ∀ n : Nat, (SortTrains l "departure-time").filter (fun t => decide (t.departureTime = n))
          = l.filter (fun t => decide (t.departureTime = n))) := by
  have hp := sliceStable_key_spec (fun t => t.price) priceLess
    (fun a b => by rw [priceLess_eq]; exact decide_eq_true_iff) l
  have ha := sliceStable_key_spec (fun t => t.arrivalTime) arrivalLess
    (fun a b => by rw [arrivalLess_eq]; exact decide_eq_true_iff) l
  have hd := sliceStable_key_spec (fun t => t.departureTime) departureLess
    (fun a b => by rw [departureLess_eq]; exact decide_eq_true_iff) l
  refine ⟨⟨hp.1, hp.2.1, ?_⟩, ⟨ha.1, ha.2.1, ?_⟩, ⟨hd.1, hd.2.1, ?_⟩⟩
  · intro q
    exact hp.2.2 _ (fun x y hx hy => (of_decide_eq_true hx).trans (of_decide_eq_true hy).symm)
  · intro n
    exact ha.2.2 _ (fun x y hx hy => (of_decide_eq_true hx).trans (of_decide_eq_true hy).symm)
  · intro n
    exact hd.2.2 _ (fun x y hx hy => (of_decide_eq_true hx).trans (of_decide_eq_true hy).symm)

/-- C9: any criteria string other than `"price"` and `"arrival-time"` sent
to `SortTrains` takes the default branch and is treated exactly like
`"departure-time"`; an unrecognized criteria never fails. -/
theorem sortTrains_default_spec (l : Trains) (c : String)
    (h1 : c ≠ "price") (h2 : c ≠ "arrival-time") :
    SortTrains l c = SortTrainsByDeparture l
      ∧ SortTrains l c = SortTrains l "departure-time" := by
  have h : SortTrains l c = SortTrainsByDeparture l := by
    unfold SortTrains
    split
    · exact absurd rfl h1
    · exact absurd rfl h2
    · rfl
  exact ⟨h, h⟩

/-- Witness for C9 at the unrecognized criteria string of the test suite. -/
theorem sortTrains_default_spec_witness :
    SortTrains [] "awef" = SortTrainsByDeparture []
      ∧ SortTrains [] "awef" = SortTrains [] "departure-time" :=
  sortTrains_default_spec [] "awef" (by decide) (by decide)

/-- C3: the validator checks the five rules in source order — departure
non-empty, arrival non-empty, departure parses as a positive integer,
arrival parses as a positive integer, criteria recognized — and returns the
error kind of the first failing rule, no error exactly when all five pass;
a validation error is returned by `FindTrains` unchanged with no records. -/
theorem validator_spec (dep arr crit : String) :
    (validator dep arr crit = some .emptyDepartureErr ↔ dep = "")
    ∧ (validator dep arr crit = some .emptyArrivalErr ↔ dep ≠ "" ∧ arr = "")
    ∧ (validator dep arr crit = some .badDepartureInputErr ↔
        dep ≠ "" ∧ arr ≠ "" ∧ ¬ parsesAsPosInt dep)
    ∧ (validator dep arr crit = some .badArrivalInputErr ↔
        dep ≠ "" ∧ arr ≠ "" ∧ parsesAsPosInt dep ∧ ¬ parsesAsPosInt arr)
    ∧ (validator dep arr crit = some .criteriaErr ↔
        dep ≠ "" ∧ arr ≠ "" ∧ parsesAsPosInt dep ∧ parsesAsPosInt arr ∧ ¬ crit ∈ validCriteria)
    ∧ (validator dep arr crit = none ↔
        dep ≠ "" ∧ arr ≠ "" ∧ parsesAsPosInt dep ∧ parsesAsPosInt arr ∧ crit ∈ validCriteria)
    ∧ ∀ (source : Trains) (e : FindErr), validator dep arr crit = some e →
        FindTrains source dep arr crit = some (.error e) := by
  by_cases h1 : dep = ""
  · subst h1
    have b1 : validateEmpty "" = false := by decide
    refine ⟨?_, ?_, ?_, ?_, ?_, ?_, ?_⟩ <;> simp [validator, FindTrains, b1]
  · have b1 : validateEmpty dep = true := (validateEmpty_eq_true_iff dep).mpr h1
    by_cases h2 : arr = ""
    · subst h2
      have b2 : validateEmpty "" = false := by decide
      refine ⟨?_, ?_, ?_, ?_, ?_, ?_, ?_⟩ <;> simp [validator, FindTrains, b1, b2, h1]
    · have b2 : validateEmpty arr = true := (validateEmpty_eq_true_iff arr).mpr h2
      cases b3 : validateIsNaturalNumber dep with
      | false =>
        have p3 : ¬ parsesAsPosInt dep := (validateIsNaturalNumber_eq_false_iff dep).mp b3
        refine ⟨?_, ?_, ?_, ?_, ?_, ?_, ?_⟩ <;>
          simp [validator, FindTrains, b1, b2, b3, h1, h2, p3]
      | true =>
        have p3 : parsesAsPosInt dep := (validateIsNaturalNumber_iff dep).mp b3
        cases b4 : validateIsNaturalNumber arr with
        | false =>
          have p4 : ¬ parsesAsPosInt arr := (validateIsNaturalNumber_eq_false_iff arr).mp b4
          refine ⟨?_, ?_, ?_, ?_, ?_, ?_, ?_⟩ <;>
            simp [validator, FindTrains, b1, b2, b3, b4, h1, h2, p3, p4]
        | true =>
          have p4 : parsesAsPosInt arr := (validateIsNaturalNumber_iff arr).mp b4
          cases b5 : validCriteria.contains crit with
          | false =>
            have p5 : ¬ crit ∈ validCriteria := fun hm => by
              have hb := (contains_validCriteria_iff crit).mpr hm
              rw [b5] at hb
              cases hb
            refine ⟨?_, ?_, ?_, ?_, ?_, ?_, ?_⟩ <;>
              simp [validator, FindTrains, b1, b2, b3, b4, b5, h1, h2, p3, p4, p5]
          | true =>
            have p5 : crit ∈ validCriteria := (contains_validCriteria_iff crit).mp b5
            refine ⟨?_, ?_, ?_, ?_, ?_, ?_, ?_⟩ <;>
              simp [validator, FindTrains, b1, b2, b3, b4, b5, h1, h2, p3, p4, p5]

/-- Witness for C3: the empty-departure error propagates through
`FindTrains` at a concrete invalid query. -/
theorem validator_spec_witness :
    FindTrains [] "" "1929" "price" = some (.error FindErr.emptyDepartureErr) :=
  (validator_spec "" "1929" "price").2.2.2.2.2.2 [] FindErr.emptyDepartureErr (by decide)

/-- C4: for a non-empty station text, the natural-number check fails exactly
when the text does not parse as an integer strictly greater than zero, and a
failing departure (resp. arrival) text reaching its rule draws
`badDepartureInputErr` (resp. `badArrivalInputErr`); any text that is the
plain decimal representation of a positive integer passes the check. -/
theorem validateIsNaturalNumber_spec :
    (∀ s : String, validateIsNaturalNumber s = true ↔ parsesAsPosInt s)
    ∧ (∀ dep arr crit : String, dep ≠ "" → arr ≠ "" → ¬ parsesAsPosInt dep →
        validator dep arr crit = some FindErr.badDepartureInputErr)
    ∧ (∀ dep arr crit : String, dep ≠ "" → arr ≠ "" → parsesAsPosInt dep →
        ¬ parsesAsPosInt arr → validator dep arr crit = some FindErr.badArrivalInputErr)
    ∧ (∀ s : String, s.toList.all Char.isDigit = true → 0 < digitsToNat s.toList →
        validateIsNaturalNumber s = true) := by
  refine ⟨validateIsNaturalNumber_iff, ?_, ?_, ?_⟩
  · intro dep arr crit h1 h2 h3
    have b1 : validateEmpty dep = true := (validateEmpty_eq_true_iff dep).mpr h1
    have b2 : validateEmpty arr = true := (validateEmpty_eq_true_iff arr).mpr h2
    have b3 : validateIsNaturalNumber dep = false :=
      (validateIsNaturalNumber_eq_false_iff dep).mpr h3
    simp [validator, b1, b2, b3]
  · intro dep arr crit h1 h2 h3 h4
    have b1 : validateEmpty dep = true := (validateEmpty_eq_true_iff dep).mpr h1
    have b2 : validateEmpty arr = true := (validateEmpty_eq_true_iff arr).mpr h2
    have b3 : validateIsNaturalNumber dep = true := (validateIsNaturalNumber_iff dep).mpr h3
    have b4 : validateIsNaturalNumber arr = false :=
      (validateIsNaturalNumber_eq_false_iff arr).mpr h4
    simp [validator, b1, b2, b3, b4]
  · intro s hdig hval
    rw [validateIsNaturalNumber_iff]
    cases hl : s.toList with
    | nil =>
      rw [hl] at hval
      simp [digitsToNat] at hval
    | cons c cs =>
      rw [hl] at hdig hval
      have hc : c.isDigit = true := List.all_eq_true.mp hdig c (List.mem_cons_self c cs)
      have hplus : c ≠ '+' := by
        intro h
        rw [h] at hc
        exact absurd hc (by decide)
      have hminus : c ≠ '-' := by
        intro h
        rw [h] at hc
        exact absurd hc (by decide)
      refine ⟨(digitsToNat (c :: cs) : Int), ?_, ?_⟩
      · simp only [parseGoInt, hl]
        rw [if_neg hplus, if_neg hminus, if_pos hdig]
      · exact_mod_cast hval

/-- Witness for C4: concrete bad and good station texts from the test
suite. -/
theorem validateIsNaturalNumber_spec_witness :
    validator "serg" "1922" "price" = some FindErr.badDepartureInputErr
    ∧ validator "1902" "serg" "price" = some FindErr.badArrivalInputErr
    ∧ validateIsNaturalNumber "1902" = true := by
  have hserg : parseGoInt "serg" = none := by decide
  have hbad : ¬ parsesAsPosInt "serg" := by
    rintro ⟨v, hv, -⟩
    rw [hserg] at hv
    cases hv
  have hgood : parsesAsPosInt "1902" := ⟨1902, by decide, by decide⟩
  exact ⟨validateIsNaturalNumber_spec.2.1 "serg" "1922" "price" (by decide) (by decide) hbad,
    validateIsNaturalNumber_spec.2.2.1 "1902" "serg" "price" (by decide) (by decide) hgood hbad,
    validateIsNaturalNumber_spec.2.2.2 "1902" (by decide) (by decide)⟩

/-- C5: for every query the validator accepts, `FindTrains` succeeds with a
record list of length `min 3 (number of matching records)`: a sorted
sequence of at least 3 elements is cut to exactly its first 3, a shorter one
is returned whole and unchanged. -/
theorem findTrains_length_spec (source : Trains) (dep arr crit : String)
    (h : validator dep arr crit = none) :
    ∃ res : Trains, FindTrains source dep arr crit = some (.ok res)
      ∧ res.length = min 3 (SelectTrains source dep arr).length
      ∧ (3 ≤ (SortTrains (SelectTrains source dep arr) crit).length →
          res = (SortTrains (SelectTrains source dep arr) crit).take 3)
      ∧ ((SortTrains (SelectTrains source dep arr) crit).length < 3 →
          res = SortTrains (SelectTrains source dep arr) crit) := by
  have hsortlen : (SortTrains (SelectTrains source dep arr) crit).length
      = (SelectTrains source dep arr).length := (sortTrains_perm _ crit).length_eq
  set sel := SelectTrains source dep arr with hsel
  by_cases h1 : sel.length < sortCondition
  · have hnil : sel = [] := by
      unfold sortCondition at h1
      exact List.length_eq_zero.mp (by omega)
    refine ⟨[], ?_, ?_, ?_, ?_⟩
    · simp [FindTrains, h, ← hsel, hnil, sortCondition]
    · simp [hnil]
    · intro h3
      rw [hnil, sortTrains_nil] at h3
      simp at h3
    · intro _
      rw [hnil, sortTrains_nil]
  · by_cases h2 : maxNumberTrains ≤ (SortTrains sel crit).length
    · have hsep := separateTopTrains_eq_take (SortTrains sel crit) h2
      have h2x : 3 ≤ (SortTrains sel crit).length := h2
      refine ⟨(SortTrains sel crit).take 3, ?_, ?_, fun _ => rfl, ?_⟩
      · simp [FindTrains, h, ← hsel, h1, h2x, hsep, maxNumberTrains]
      · rw [List.length_take, hsortlen]
      · intro hlt
        unfold maxNumberTrains at h2
        omega
    · refine ⟨SortTrains sel crit, ?_, ?_, ?_, fun _ => rfl⟩
      · simp [FindTrains, h, ← hsel, h1, h2]
      · unfold maxNumberTrains at h2
        rw [hsortlen]
        omega
      · intro hge
        unfold maxNumberTrains at h2
        omega

/-- Witness for C5 at a concrete valid query over an empty source. -/
theorem findTrains_length_spec_witness :
    validator "1902" "1929" "price" = none
    ∧ ∃ res : Trains, FindTrains [] "1902" "1929" "price" = some (.ok res)
      ∧ res.length = min 3 (SelectTrains [] "1902" "1929").length
      ∧ (3 ≤ (SortTrains (SelectTrains [] "1902" "1929") "price").length →
          res = (SortTrains (SelectTrains [] "1902" "1929") "price").take 3)
      ∧ ((SortTrains (SelectTrains [] "1902" "1929") "price").length < 3 →
          res = SortTrains (SelectTrains [] "1902" "1929") "price") :=
  ⟨by decide, findTrains_length_spec [] "1902" "1929" "price" (by decide)⟩

/-- C6: a query the validator accepts whose station pair matches no record
returns the empty list and no error. -/
theorem findTrains_noMatch_spec (source : Trains) (dep arr crit : String)
    (h : validator dep arr crit = none) (h0 : SelectTrains source dep arr = []) :
    FindTrains source dep arr crit = some (.ok []) := by
  simp [FindTrains, h, h0, sortCondition]

/-- Witness for C6: a valid query against a source with no matching
record. -/
theorem findTrains_noMatch_spec_witness :
    FindTrains [] "1902" "1929" "price" = some (.ok []) :=
  findTrains_noMatch_spec [] "1902" "1929" "price" (by decide) (by decide)

/-- C8: skipping the sort for selections of fewer than `sortCondition`
elements is not observable: `FindTrains` agrees with the variant that sorts
unconditionally on every input. -/
theorem findTrains_always_sort_spec (source : Trains) (dep arr crit : String) :
    FindTrains source dep arr crit = FindTrainsAlwaysSort source dep arr crit := by
  unfold FindTrains FindTrainsAlwaysSort
  cases h : validator dep arr crit with
  | some e => rfl
  | none =>
    set sel := SelectTrains source dep arr with hsel
    by_cases h1 : sel.length < sortCondition
    · have hnil : sel = [] := by
        unfold sortCondition at h1
        exact List.length_eq_zero.mp (by omega)
      simp [h1, hnil, sortTrains_nil, sortCondition, maxNumberTrains]
    · simp [h1]

/-- C10: `SeparateTopTrains` reads indices 0, 1 and 2 unconditionally: with
at least 3 elements every access is in range and the result is exactly the
first 3 elements in order, with fewer an access is out of range (the `none`
branch of the embedding). -/
theorem separateTopTrains_spec (l : Trains) :
    (3 ≤ l.length → SeparateTopTrains l = some (l.take 3))
    ∧ (l.length < 3 → SeparateTopTrains l = none) :=
  ⟨separateTopTrains_eq_take l, separateTopTrains_eq_none l⟩

/-- Witness for C10: a 4-element list yields its first 3 elements, a
1-element list panics. -/
theorem separateTopTrains_spec_witness :
    SeparateTopTrains
        [⟨1, 1, 1, 1, 1, 1⟩, ⟨2, 1, 1, 1, 1, 1⟩, ⟨3, 1, 1, 1, 1, 1⟩, ⟨4, 1, 1, 1, 1, 1⟩]
      = some [⟨1, 1, 1, 1, 1, 1⟩, ⟨2, 1, 1, 1, 1, 1⟩, ⟨3, 1, 1, 1, 1, 1⟩]
    ∧ SeparateTopTrains [⟨1, 1, 1, 1, 1, 1⟩] = none :=
  ⟨(separateTopTrains_spec _).1 (by decide), (separateTopTrains_spec _).2 (by decide)⟩

/-- Seconds since midnight of an `HH:MM:SS` time of day. -/
def timeOfDay (h m s : Nat) : Nat :=
  h * 3600 + m * 60 + s

/-- Train 1177 of the test data: 1902 → 1929, price 164.65 (as the rational
16465/100), arrival 10:25, departure 16:36. -/
def train1177 : Train :=
  { trainID := 1177, departureStationID := 1902, arrivalStationID := 1929,
    price := mkRat 16465 100, arrivalTime := timeOfDay 10 25 0,
    departureTime := timeOfDay 16 36 0 }

/-- Train 1178 of the test data: same pair, price and times as 1177. -/
def train1178 : Train :=
  { trainID := 1178, departureStationID := 1902, arrivalStationID := 1929,
    price := mkRat 16465 100, arrivalTime := timeOfDay 10 25 0,
    departureTime := timeOfDay 16 36 0 }

/-- Train 1141 of the test data: 1902 → 1929, price 176.77, arrival 12:15,
departure 16:48. -/
def train1141 : Train :=
  { trainID := 1141, departureStationID := 1902, arrivalStationID := 1929,
    price := mkRat 17677 100, arrivalTime := timeOfDay 12 15 0,
    departureTime := timeOfDay 16 48 0 }

/-- A record serving the opposite pair 1929 → 1902, which the scenario query
must not select. -/
def trainOther : Train :=
  { trainID := 1785, departureStationID := 1929, arrivalStationID := 1902,
    price := mkRat 15050 100, arrivalTime := timeOfDay 9 10 0,
    departureTime := timeOfDay 15 5 0 }

/-- The record source of the end-to-end scenario: the three matching records
of the test data plus one non-matching record. -/
def scenarioSource : Trains :=
  [trainOther, train1177, train1178, train1141]

/-- C7: with the scenario source, the query (departure "1902", arrival
"1929", criterion "price") returns exactly trains 1177, 1178, 1141 in that
order and no error; the price tie between 1177 and 1178 is kept in original
order by the stable sort. -/
theorem findTrains_scenario :
    FindTrains scenarioSource "1902" "1929" "price"
      = some (.ok [train1177, train1178, train1141]) := by
  have hv : validator "1902" "1929" "price" = none := by decide
  have hsel : SelectTrains scenarioSource "1902" "1929" = [train1177, train1178, train1141] := by
    decide
  have hsorted : SortTrains [train1177, train1178, train1141] "price"
      = [train1177, train1178, train1141] := by
    show sliceStable [train1177, train1178, train1141] priceLess = _
    unfold sliceStable
    apply List.mergeSort_of_sorted
    decide
  have hsep : SeparateTopTrains [train1177, train1178, train1141]
      = some [train1177, train1178, train1141] := by decide
  simp [FindTrains, hv, hsel, hsorted, hsep, sortCondition, maxNumberTrains]

end TrainApp
